import Mathlib

/-!
Shallow embedding of the `pot` server (src/server.go): a path-addressed JSON
document collection stored as a single object in a bucket, with a local path
lock, an optional distributed sentinel lock, and an optimistic no-rewrite
guard.  Times and durations are modelled as `Int` nanoseconds (Go `time.Time`
and `time.Duration` are int64-nanosecond based); generations as `Int`.
-/

/-- A JSON-like value as produced by Go's `encoding/json` decoding into
`map[string]any`.  Objects are association lists of fields. -/
inductive JSONValue where
  | null : JSONValue
  | bool (b : Bool) : JSONValue
  | num (n : Int) : JSONValue
  | str (s : String) : JSONValue
  | arr (elems : List JSONValue) : JSONValue
  | obj (fields : List (String × JSONValue)) : JSONValue


/-- A decoded Go `map[string]any`: the in-memory form of a collection and of a
single-mode request body. -/
abbrev JsonMap := List (String × JSONValue)

/-- Membership test on a decoded map, mirroring Go's `_, ok := m[k]`. -/
def containsKey (m : JsonMap) (k : String) : Bool :=
  m.any (fun p => p.1 == k)

/-- Lookup on a decoded map, mirroring Go's `v, ok := m[k]`. -/
def lookupKey (m : JsonMap) (k : String) : Option JSONValue :=
  (m.find? (fun p => p.1 == k)).map Prod.snd

/-- Map update `m[k] = v`: replaces the entry in place when the key is
present, appends otherwise (a Go map holds at most one entry per key). -/
def insertKey : JsonMap → String → JSONValue → JsonMap
  | [], k, v => [(k, v)]
  | p :: rest, k, v =>
    if p.1 == k then (k, v) :: rest else p :: insertKey rest k v

/-- Map deletion `delete(m, k)`. -/
def eraseKey (m : JsonMap) (k : String) : JsonMap :=
  m.filter (fun p => !(p.1 == k))

/-- The guard predicate `canRewrite` (src/server.go:262): whether the last modification of the pot
is older than the provided duration, `lastModification.Add(duration).Before(now)`.
`Before` is a strict comparison. -/
def canRewrite (lastModification now : Int) (duration : Int) : Bool :=
  lastModification + duration < now

/-- The stored collection object for one path, together with the metadata the
object store reports on a read (src/server.go: `reader.Attrs`). -/
structure PotObject where
  content : JsonMap
  lastModified : Int
  generation : Int


/-- The options record `CallOpts` (src/server.go:217): options of a single server call. -/
structure CallOpts where
  batch : Bool := false
  norewrite : Bool := false
  norewriteDuration : Int := 0
  lastKnownGeneration : Int := 0


/-- The call option `WithBatch` (src/server.go:229). -/
def WithBatch (o : CallOpts) : CallOpts := { o with batch := true }

/-- The call option `WithNoRewrite` (src/server.go:244). -/
def WithNoRewrite (deadline : Int) (o : CallOpts) : CallOpts :=
  { o with norewrite := true, norewriteDuration := deadline }

/-- The call option `WithRewriteGeneration` (src/server.go:254). -/
def WithRewriteGeneration (gen : Int) (o : CallOpts) : CallOpts :=
  { o with lastKnownGeneration := gen }

/-- Outcome of a `Create` call (src/server.go:272).  `ok` carries the applied
objects and the new generation (the `CreateResponse`) together with the object
written back to the store; `noRewriteViolated` is the
`ErrNoRewriteViolated: <key>` error naming the offending key;
`malformedInput` is a JSON decoding error of the request body; `panicked` is
the runtime panic of the failed `key = name.(string)` type assertions. -/
inductive CreateResult where
  | ok (written : JsonMap) (generation : Int) (newState : PotObject) : CreateResult
  | noRewriteViolated (key : String) : CreateResult
  | malformedInput : CreateResult
  | panicked : CreateResult


/-- The error test `IsNoRewriteViolated` (src/server.go:32) on a create outcome. -/
def IsNoRewriteViolated : CreateResult → Bool
  | .noRewriteViolated _ => true
  | _ => false

/-- Whether the create succeeded. -/
def CreateResult.isOk : CreateResult → Bool
  | .ok _ _ _ => true
  | _ => false

/-- Single-mode body decode (src/server.go:343): `json.Decode(&obj)` into a
`map[string]any` succeeds exactly on a JSON object. -/
def decodeSingleContent : JSONValue → Option JsonMap
  | .obj fields => some fields
  | _ => none

/-- The batch decoder `decodeBatchContent` (src/server.go:411): decodes a two-level map
`map[string]map[string]any` and flattens it to `map[string]any`. -/
def decodeBatchContent : JSONValue → Option JsonMap
  | .obj fields =>
    fields.mapM (fun p =>
      match p.2 with
      | .obj o => some (p.1, JSONValue.obj o)
      | _ => none)
  | _ => none

/-- Key derivation of single mode (src/server.go:347-354): start from the
empty key, take `obj["name"]` when present, then prefer `obj["id"]`.  Each
taken field goes through an unchecked `.(string)` type assertion; a non-string
value panics, modelled as `none`. -/
def deriveKey (obj : JsonMap) : Option String :=
  match lookupKey obj "name" with
  | some (JSONValue.str s) =>
    match lookupKey obj "id" with
    | some (JSONValue.str t) => some t
    | some _ => none
    | none => some s
  | some _ => none
  | none =>
    match lookupKey obj "id" with
    | some (JSONValue.str t) => some t
    | some _ => none
    | none => some ""

/-- Decode stage of `Create` (src/server.go:333-358): batch bodies through
`decodeBatchContent`, single bodies through object decode plus key
derivation, yielding the `objs` map to merge. -/
inductive DecodedObjs where
  | decoded (objs : JsonMap) : DecodedObjs
  | malformed : DecodedObjs
  | panicked : DecodedObjs


def decodeObjs (batch : Bool) (body : JSONValue) : DecodedObjs :=
  if batch then
    match decodeBatchContent body with
    | some objs => .decoded objs
    | none => .malformed
  else
    match decodeSingleContent body with
    | none => .malformed
    | some obj =>
      match deriveKey obj with
      | none => .panicked
      | some key => .decoded [(key, JSONValue.obj obj)]

/-- The rewrite permission of one `Create` call (src/server.go:365-383):
`allowRewrite` starts true; when the pot exists and `norewrite` is set, a
positive unexpired duration forbids the rewrite, and a matching last-known
generation re-enables it unconditionally. -/
def allowRewrite (existing : Option PotObject) (now : Int) (opts : CallOpts) : Bool :=
  match existing with
  | none => true
  | some o =>
    if opts.norewrite then
      if o.generation == opts.lastKnownGeneration then true
      else if opts.norewriteDuration > 0 &&
          !canRewrite o.lastModified now opts.norewriteDuration then false
      else true
    else true

/-- The merge loop of `Create` (src/server.go:385-393): each incoming key that
already exists in the content needs rewrite permission, otherwise the call
fails naming that key; every surviving key overwrites the content entry. -/
def mergeObjs (content : JsonMap) (objs : JsonMap) (allow : Bool) :
    Except String JsonMap :=
  match objs with
  | [] => .ok content
  | (k, v) :: rest =>
    if containsKey content k && !allow then .error k
    else mergeObjs (insertKey content k v) rest allow

/-- The operation `Create` (src/server.go:272-407), read-merge-write on one path, pure part:
reads the existing object (absent object means empty content), decodes the
body, evaluates the rewrite guard, merges, and writes the merged content back
as a new object carrying the write time and the next generation. -/
def createOp (existing : Option PotObject) (now newGen : Int) (opts : CallOpts)
    (body : JSONValue) : CreateResult :=
  let content : JsonMap := match existing with
    | none => []
    | some o => o.content
  match decodeObjs opts.batch body with
  | .malformed => .malformedInput
  | .panicked => .panicked
  | .decoded objs =>
    match mergeObjs content objs (allowRewrite existing now opts) with
    | .error k => .noRewriteViolated k
    | .ok merged => .ok objs newGen ⟨merged, now, newGen⟩

/-- The store transition of `Create`: the pot object is rewritten only on the
success path (the writer runs after the merge loop; every error returns before
any write). -/
def createStore (existing : Option PotObject) (now newGen : Int)
    (opts : CallOpts) (body : JSONValue) : CreateResult × Option PotObject :=
  match createOp existing now newGen opts body with
  | .ok written g st => (.ok written g st, some st)
  | r => (r, existing)

/-- Errors of the abstract object-store interface as seen by the server:
`notFound` is `storage.ErrObjectNotExist`, `ioFailure` any other transport
error. -/
inductive StoreErr where
  | notFound : StoreErr
  | ioFailure : StoreErr
  deriving DecidableEq

/-- The store read `pot.NewReader(ctx)`: an absent object yields
`ErrObjectNotExist`. -/
def readObject : Option PotObject → Except StoreErr PotObject
  | none => .error .notFound
  | some o => .ok o

/-- The operation `Get` (src/server.go:468-491) on the result of the store read: a missing
object is treated as an empty collection; any other error propagates. -/
def getOp : Except StoreErr PotObject → Except StoreErr JsonMap
  | .error .notFound => .ok []
  | .error e => .error e
  | .ok o => .ok o.content

/-- The operation `Remove` (src/server.go:494-548), pure part: reads the existing object
(absent object means empty content), deletes each requested key from the
content, and writes the result back unconditionally. -/
def removeOp (existing : Option PotObject) (keys : List String)
    (now newGen : Int) : Except StoreErr Unit × Option PotObject :=
  let content : JsonMap := match existing with
    | none => []
    | some o => o.content
  let newContent := keys.foldl eraseKey content
  (.ok (), some ⟨newContent, now, newGen⟩)

/-- The helper `potPath` (src/server.go:212): the data object of a path. -/
def potPath (dir : String) : String := dir ++ "/data.json"

/-- Lock and store events an operation performs, in order. -/
inductive OpEvent where
  | lockLocal (dir : String) : OpEvent
  | unlockLocal (dir : String) : OpEvent
  | lockDistributed (dir : String) : OpEvent
  | unlockDistributed (dir : String) : OpEvent
  | readObj (name : String) : OpEvent
  | writeObj (name : String) : OpEvent
  deriving DecidableEq

/-- The lock/store event trace of `Create` (src/server.go:272-407): local
lock, then — only when distributed locking is enabled — the sentinel lock,
then read and write of the data object, then the deferred releases in reverse
order. -/
def createTrace (distributedLock : Bool) (dir : String) : List OpEvent :=
  [.lockLocal dir]
    ++ (if distributedLock then [.lockDistributed dir] else [])
    ++ [.readObj (potPath dir), .writeObj (potPath dir)]
    ++ (if distributedLock then [.unlockDistributed dir] else [])
    ++ [.unlockLocal dir]

/-- Object filter of `Zip` (src/server.go:568-576): objects under the
destination directory and `.potlock` sentinels are skipped. -/
def zipIncludes (dir name : String) : Bool :=
  !(dir.isPrefixOf name) && !(name.endsWith ".potlock")

set_option linter.unusedVariables false in
/-- The lock/store event trace of `Zip` (src/server.go:550-614): the local
lock on the destination, a read of every included object, the write of the
bundle, and the local unlock.  The `distributedLock` flag is a field of the
server but `Zip` never consults it. -/
def zipTrace (distributedLock : Bool) (dir : String)
    (objNames : List String) : List OpEvent :=
  [.lockLocal dir]
    ++ (objNames.filter (zipIncludes dir)).map .readObj
    ++ [.writeObj (dir ++ "/bundle.tar.gz"), .unlockLocal dir]

/-- Failure of a conditional store operation. -/
inductive LockErr where
  | preconditionFailed : LockErr
  deriving DecidableEq

/-- The acquisition `lockSharedPath` (src/server.go:670-689): conditional creation of the
`.potlock` sentinel guarded by `DoesNotExist`; the sentinel is modelled by the
generation of the sentinel object when present.  Success returns the new
generation as the token (the id string round-trips through
`strconv.FormatInt`/`ParseInt`, so it is modelled as the integer itself). -/
def lockSharedPath (sentinel : Option Int) (newGen : Int) :
    Except LockErr (Int × Option Int) :=
  match sentinel with
  | some _ => .error .preconditionFailed
  | none => .ok (newGen, some newGen)

/-- The release `unlockSharedPath` (src/server.go:692-702): conditional delete of the
`.potlock` sentinel guarded by `GenerationMatch: token`.  The delete fails
its precondition when the sentinel is absent or carries a different
generation. -/
def unlockSharedPath (sentinel : Option Int) (tokenGen : Int) :
    Except LockErr (Option Int) :=
  match sentinel with
  | some g => if g == tokenGen then .ok none else .error .preconditionFailed
  | none => .error .preconditionFailed

/-- The deferred unlock of `Create` and `Remove` (src/server.go:303-308,
509-514): after the body computed its result, `unlockSharedPath` runs; its
failure is only logged, so the operation's result is passed through
unchanged and a failed delete leaves the sentinel as it was. -/
def deferUnlockCleanup (res : CreateResult) (sentinel : Option Int)
    (tokenGen : Int) : CreateResult × Option Int :=
  match unlockSharedPath sentinel tokenGen with
  | .ok s => (res, s)
  | .error _ => (res, sentinel)

/-! Helper lemmas about the map operations and the merge loop. -/

lemma containsKey_nil (k : String) : containsKey [] k = false := rfl

lemma containsKey_insertKey_iff (m : JsonMap) (k j : String) (v : JSONValue) :
    containsKey (insertKey m k v) j = true ↔ (j = k ∨ containsKey m j = true) := by
  induction m with
  | nil =>
    simp [insertKey, containsKey]
    exact eq_comm
  | cons p rest ih =>
    obtain ⟨a, w⟩ := p
    by_cases h : a = k
    · subst h
      simp [insertKey, containsKey, List.any_cons]
      tauto
    · have hb : (a == k) = false := by simpa using h
      simp only [containsKey] at ih ⊢
      simp only [insertKey, hb, Bool.false_eq_true, if_false, List.any_cons,
        Bool.or_eq_true, ih]
      tauto

lemma containsKey_insertKey_of (m : JsonMap) (k j : String) (v : JSONValue)
    (h : containsKey m j = true) : containsKey (insertKey m k v) j = true :=
  (containsKey_insertKey_iff m k j v).2 (Or.inr h)

lemma containsKey_of_insertKey_ne (m : JsonMap) (k j : String) (v : JSONValue)
    (h : containsKey (insertKey m k v) j = true) (hne : j ≠ k) :
    containsKey m j = true := by
  rcases (containsKey_insertKey_iff m k j v).1 h with h' | h'
  · exact absurd h' hne
  · exact h'

lemma eraseKey_of_not_containsKey (m : JsonMap) (k : String)
    (h : containsKey m k = false) : eraseKey m k = m := by
  rw [eraseKey, List.filter_eq_self]
  intro p hp
  simp only [containsKey, List.any_eq_false] at h
  simpa using h p hp

/-- With rewrite permission the merge loop never fails and folds every
incoming object into the content. -/
lemma mergeObjs_allow (objs : JsonMap) (content : JsonMap) :
    mergeObjs content objs true =
      .ok (objs.foldl (fun c p => insertKey c p.1 p.2) content) := by
  induction objs generalizing content with
  | nil => rfl
  | cons p rest ih => simp [mergeObjs, ih]

/-- The key named by a failing merge is one of the incoming keys. -/
lemma mergeObjs_error_mem (objs : JsonMap) (content : JsonMap) (allow : Bool)
    (k : String) (h : mergeObjs content objs allow = .error k) :
    k ∈ objs.map Prod.fst := by
  induction objs generalizing content with
  | nil => simp [mergeObjs] at h
  | cons p rest ih =>
    obtain ⟨k', v'⟩ := p
    by_cases hc : containsKey content k' && !allow
    · simp only [mergeObjs, hc, if_true] at h
      cases h
      simp
    · simp only [mergeObjs, hc, if_false] at h
      simpa using Or.inr (ih _ h)

/-- Without rewrite permission, a batch whose keys are distinct and include a
key already present in the content fails, naming an incoming key that is
present in the content. -/
lemma mergeObjs_disallow (objs : JsonMap) (content : JsonMap)
    (hnd : (objs.map Prod.fst).Nodup)
    (hex : ∃ j ∈ objs.map Prod.fst, containsKey content j = true) :
    ∃ k, mergeObjs content objs false = .error k ∧
      containsKey content k = true ∧ k ∈ objs.map Prod.fst := by
  induction objs generalizing content with
  | nil => simp at hex
  | cons p rest ih =>
    obtain ⟨k, v⟩ := p
    by_cases hc : containsKey content k = true
    · exact ⟨k, by simp [mergeObjs, hc], hc, by simp⟩
    · obtain ⟨j, hj, hcj⟩ := hex
      have hjk : j ≠ k := fun he => hc (he ▸ hcj)
      have hjr : j ∈ rest.map Prod.fst := by
        rcases (by simpa using hj : j = k ∨ j ∈ rest.map Prod.fst) with h | h
        · exact absurd h hjk
        · exact h
      have hnd' : (rest.map Prod.fst).Nodup := (List.nodup_cons.1 (by simpa using hnd)).2
      have hknr : k ∉ rest.map Prod.fst := (List.nodup_cons.1 (by simpa using hnd)).1
      obtain ⟨k', hmerge, hck', hk'r⟩ := ih (insertKey content k v) hnd'
        ⟨j, hjr, containsKey_insertKey_of content k j v hcj⟩
      refine ⟨k', ?_, ?_, by simp [hk'r]⟩
      · simpa [mergeObjs, hc] using hmerge
      · exact containsKey_of_insertKey_ne content k k' v hck'
          (fun he => hknr (he ▸ hk'r))

/-- One contender of the election scenario of §8: a caller issuing
`create(path, {key: doc}, noRewrite, leaseDuration)` with no asserted
generation, at its own time `now`. -/
structure ElectionCaller where
  doc : JsonMap
  leaseDuration : Int
  now : Int

/-- N callers racing on one path.  The local path lock (and, across
processes, the distributed lock) serializes the callers, so the race is
modelled as the sequential execution of the complete calls in arrival order;
the store hands out increasing generations starting at `nextGen`. -/
def runElection (key : String) (st : Option PotObject) (nextGen : Int) :
    List ElectionCaller → List CreateResult × Option PotObject
  | [] => ([], st)
  | c :: rest =>
    let opts : CallOpts :=
      { batch := true, norewrite := true, norewriteDuration := c.leaseDuration }
    let (res, st') := createStore st c.now nextGen opts (.obj [(key, .obj c.doc)])
    let nextGen' := if res.isOk then nextGen + 1 else nextGen
    let (results, stFinal) := runElection key st' nextGen' rest
    (res :: results, stFinal)

/-! Claim theorems. -/

/-- C1: `canRewrite(lastModified, now, d)` is false when `now == lastModified`;
at the exact deadline `now == lastModified + d` the code returns false (the
comparison `lastModification.Add(duration).Before(now)` is strict), although
the spec and the repository's own "exact duration" test case expect true
there; strictly past the deadline it returns true.  Evaluated at
`lastModified = 0`, `d = 1s`, `now ∈ {0, 1s, 1s + 1ns}` (nanoseconds). -/
theorem canRewrite_exact_deadline_divergence :
    canRewrite 0 0 1000000000 = false ∧
    canRewrite 0 1000000000 1000000000 = false ∧
    canRewrite 0 1000000001 1000000000 = true := by
  decide

/-- C8: `Get` on a path with no prior writes returns an empty collection and
no error; the store's NotFound condition is never surfaced by `Get`. -/
theorem get_missing_collection_is_empty :
    getOp (readObject none) = .ok [] ∧
      ∀ r, getOp r ≠ .error StoreErr.notFound := by
  refine ⟨rfl, fun r => ?_⟩
  match r with
  | .ok o => simp [getOp]
  | .error .notFound => simp [getOp]
  | .error .ioFailure => simp [getOp]

/-- C9: removing a key that is not present in an existing collection is a
no-op returning success: no error, and the stored content is unchanged. -/
theorem remove_missing_key_is_noop (o : PotObject) (k : String)
    (now newGen : Int) (h : containsKey o.content k = false) :
    removeOp (some o) [k] now newGen =
      (.ok (), some ⟨o.content, now, newGen⟩) := by
  simp [removeOp, eraseKey_of_not_containsKey o.content k h]

/-- Witness for C9 at a concrete collection and key. -/
theorem remove_missing_key_is_noop_witness :
    containsKey [("a", JSONValue.null)] "b" = false ∧
    removeOp (some ⟨[("a", JSONValue.null)], 0, 1⟩) ["b"] 5 2 =
      (.ok (), some ⟨[("a", JSONValue.null)], 5, 2⟩) :=
  ⟨by decide, remove_missing_key_is_noop ⟨[("a", JSONValue.null)], 0, 1⟩ "b" 5 2
    (by decide)⟩

/-- C6: the distributed-lock release is a conditional delete of the sentinel
guarded by generation equality with the acquisition token, and a failing
release during the deferred cleanup is only logged: the operation's result is
returned unchanged. -/
theorem unlock_is_conditional_and_advisory (res : CreateResult)
    (sentinel : Option Int) (tokenGen : Int) :
    (deferUnlockCleanup res sentinel tokenGen).1 = res ∧
    (unlockSharedPath sentinel tokenGen = .ok none ↔ sentinel = some tokenGen) := by
  constructor
  · cases h : unlockSharedPath sentinel tokenGen <;>
      simp [deferUnlockCleanup, h]
  · match sentinel with
    | none => simp [unlockSharedPath]
    | some g => by_cases h : g = tokenGen <;> simp [unlockSharedPath, h]

/-- C5 counterexample: with distributed locking enabled, the event trace of
`Zip` on a concrete destination and store contains no acquisition of the
distributed sentinel lock, so `Zip` does not execute under the distributed
lock of its destination path. -/
theorem zip_trace_counterexample :
    OpEvent.lockDistributed "archive" ∉
      zipTrace true "archive"
        ["a/data.json", "archive/bundle.tar.gz", "b/.potlock"] := by
  simp [zipTrace]

/-- C5 amended: `Zip` runs under the destination's local path lock only: its
trace begins by acquiring and contains the release of the local lock, and it
never acquires the distributed sentinel lock even when distributed locking is
enabled — unlike `Create`, whose trace does acquire it. -/
theorem zip_holds_local_lock_only (dir : String) (objNames : List String) :
    (zipTrace true dir objNames).head? = some (.lockLocal dir) ∧
    OpEvent.unlockLocal dir ∈ zipTrace true dir objNames ∧
    (∀ d, OpEvent.lockDistributed d ∉ zipTrace true dir objNames) ∧
    OpEvent.lockDistributed dir ∈ createTrace true dir := by
  refine ⟨rfl, ?_, fun d => ?_, ?_⟩
  · simp [zipTrace]
  · simp [zipTrace]
  · simp [createTrace]

/-- C10: a well-formed JSON object whose `id` field holds a non-string value
makes single-mode `Create` panic at the `id.(string)` type assertion rather
than return a malformed-input error: single-mode create is not total over
well-formed JSON objects. -/
theorem create_single_nonstring_id_panics :
    decodeSingleContent (.obj [("id", JSONValue.num 3)]) =
      some [("id", JSONValue.num 3)] ∧
    createOp none 0 1 {} (.obj [("id", JSONValue.num 3)]) = .panicked ∧
    createOp none 0 1 {} (.obj [("id", JSONValue.num 3)]) ≠ .malformedInput := by
  refine ⟨rfl, rfl, ?_⟩
  intro h
  rw [show createOp none 0 1 {} (.obj [("id", JSONValue.num 3)]) = .panicked
    from rfl] at h
  exact CreateResult.noConfusion h

/-- C2 counterexample: a create on an existing collection with `noRewrite`
set, zero lease duration, the incoming key already present, and an asserted
generation (3) different from the collection's generation (7) does not fail
with a rewrite violation — it succeeds, because the guard only engages when
the duration is positive. -/
theorem create_zero_lease_counterexample :
    IsNoRewriteViolated (createOp (some ⟨[("k", JSONValue.str "old")], 0, 7⟩)
      1 8
      { batch := true, norewrite := true, norewriteDuration := 0,
        lastKnownGeneration := 3 }
      (.obj [("k", JSONValue.obj [("f", JSONValue.num 1)])])) = false := by
  rfl

/-- C2 amended: with `noRewrite` set and `leaseDuration = 0` the rewrite
guard never fires (the duration check requires a positive duration), so the
create never fails with a rewrite violation, whatever the asserted
generation. -/
theorem create_zero_lease_never_violates (o : PotObject) (now newGen : Int)
    (opts : CallOpts) (body : JSONValue)
    (hnr : opts.norewrite = true) (hd : opts.norewriteDuration = 0) :
    IsNoRewriteViolated (createOp (some o) now newGen opts body) = false := by
  have hall : allowRewrite (some o) now opts = true := by
    simp [allowRewrite, hnr, hd]
  cases hdec : decodeObjs opts.batch body with
  | malformed => simp [createOp, hdec, IsNoRewriteViolated]
  | panicked => simp [createOp, hdec, IsNoRewriteViolated]
  | decoded objs =>
    simp [createOp, hdec, hall, mergeObjs_allow, IsNoRewriteViolated]

/-- Witness for C2's amended claim at a concrete collection and options. -/
theorem create_zero_lease_never_violates_witness :
    IsNoRewriteViolated (createOp (some ⟨[("k", JSONValue.str "old")], 0, 9⟩)
      2 10
      { batch := true, norewrite := true, norewriteDuration := 0,
        lastKnownGeneration := 4 }
      (.obj [("k", JSONValue.obj [("g", JSONValue.num 2)])])) = false :=
  create_zero_lease_never_violates ⟨[("k", JSONValue.str "old")], 0, 9⟩ 2 10
    { batch := true, norewrite := true, norewriteDuration := 0,
      lastKnownGeneration := 4 }
    (.obj [("k", JSONValue.obj [("g", JSONValue.num 2)])]) rfl rfl

/-- C4: on an existing collection with `noRewrite` set, an asserted
generation equal to the collection's current generation allows rewriting
unconditionally: the create succeeds and folds every incoming object into the
content, with no constraint relating `now`, the last modification and the
lease duration. -/
theorem create_generation_match_allows_rewrite (o : PotObject)
    (now newGen : Int) (opts : CallOpts) (body : JSONValue) (objs : JsonMap)
    (hnr : opts.norewrite = true)
    (hg : opts.lastKnownGeneration = o.generation)
    (hdec : decodeObjs opts.batch body = .decoded objs) :
    createOp (some o) now newGen opts body =
      .ok objs newGen
        ⟨objs.foldl (fun c p => insertKey c p.1 p.2) o.content, now, newGen⟩ := by
  have hall : allowRewrite (some o) now opts = true := by
    simp [allowRewrite, hnr, hg]
  simp [createOp, hdec, hall, mergeObjs_allow]

/-- Witness for C4: the owner (generation 7) immediately rewrites its key
although the lease (duration 100, written at time 0, now 1) has not expired. -/
theorem create_generation_match_witness :
    createOp (some ⟨[("k", JSONValue.str "old")], 0, 7⟩) 1 8
      { batch := true, norewrite := true, norewriteDuration := 100,
        lastKnownGeneration := 7 }
      (.obj [("k", JSONValue.obj [("f", JSONValue.num 2)])]) =
      .ok [("k", JSONValue.obj [("f", JSONValue.num 2)])] 8
        ⟨[("k", JSONValue.obj [("f", JSONValue.num 2)])], 1, 8⟩ := by
  have h := create_generation_match_allows_rewrite
    ⟨[("k", JSONValue.str "old")], 0, 7⟩ 1 8
    { batch := true, norewrite := true, norewriteDuration := 100,
      lastKnownGeneration := 7 }
    (.obj [("k", JSONValue.obj [("f", JSONValue.num 2)])])
    [("k", JSONValue.obj [("f", JSONValue.num 2)])] rfl rfl rfl
  simpa using h

/-- C3: a batch create in which some incoming key hits the rewrite guard
(distinct incoming keys, permission denied, one of them already stored) fails
as a whole with a rewrite violation naming an offending key, and the stored
collection is left exactly as it was: no key of the batch is written. -/
theorem create_batch_atomic_on_violation (o : PotObject) (now newGen : Int)
    (opts : CallOpts) (body : JSONValue) (objs : JsonMap)
    (hdec : decodeObjs opts.batch body = .decoded objs)
    (hnd : (objs.map Prod.fst).Nodup)
    (hdeny : allowRewrite (some o) now opts = false)
    (hex : ∃ j ∈ objs.map Prod.fst, containsKey o.content j = true) :
    ∃ k, createStore (some o) now newGen opts body =
        (.noRewriteViolated k, some o) ∧
      containsKey o.content k = true ∧ k ∈ objs.map Prod.fst := by
  obtain ⟨k, hm, hck, hkm⟩ := mergeObjs_disallow objs o.content hnd hex
  exact ⟨k, by simp [createStore, createOp, hdec, hdeny, hm], hck, hkm⟩

/-- Witness for C3: a two-key batch, one key fresh and one key stored under
an unexpired lease held by another generation, is rejected whole and the
store keeps its previous single entry. -/
theorem create_batch_atomic_witness :
    ∃ k, createStore (some ⟨[("k", JSONValue.str "old")], 0, 7⟩) 50 8
        { batch := true, norewrite := true, norewriteDuration := 100,
          lastKnownGeneration := 0 }
        (.obj [("k", JSONValue.obj [("f", JSONValue.num 1)]),
               ("new", JSONValue.obj [("g", JSONValue.num 2)])]) =
        (.noRewriteViolated k, some ⟨[("k", JSONValue.str "old")], 0, 7⟩) ∧
      containsKey [("k", JSONValue.str "old")] k = true ∧
      k ∈ ["k", "new"] := by
  have h := create_batch_atomic_on_violation
    ⟨[("k", JSONValue.str "old")], 0, 7⟩ 50 8
    { batch := true, norewrite := true, norewriteDuration := 100,
      lastKnownGeneration := 0 }
    (.obj [("k", JSONValue.obj [("f", JSONValue.num 1)]),
           ("new", JSONValue.obj [("g", JSONValue.num 2)])])
    [("k", JSONValue.obj [("f", JSONValue.num 1)]),
     ("new", JSONValue.obj [("g", JSONValue.num 2)])]
    rfl (by simp) rfl ⟨"k", by simp, rfl⟩
  simpa using h

/-- A one-key batch body decodes to the one-entry objs map. -/
lemma decodeObjs_batch_singleton (k : String) (d : JsonMap) :
    decodeObjs true (.obj [(k, JSONValue.obj d)]) =
      .decoded [(k, JSONValue.obj d)] := rfl

/-- One losing contender: against a collection whose single entry is the
winner's key, written at `t0` by generation `g`, a caller with a positive
lease duration, a time within the winner's unexpired window and no asserted
generation fails with a rewrite violation and changes nothing. -/
lemma election_loser_step (key : String) (doc0 : JsonMap) (t0 g ng : Int)
    (c : ElectionCaller) (hd : 0 < c.leaseDuration)
    (hnow : c.now ≤ t0 + c.leaseDuration) (hg : g ≠ 0) :
    createStore (some ⟨[(key, JSONValue.obj doc0)], t0, g⟩) c.now ng
      { batch := true, norewrite := true,
        norewriteDuration := c.leaseDuration }
      (.obj [(key, .obj c.doc)]) =
      (.noRewriteViolated key, some ⟨[(key, JSONValue.obj doc0)], t0, g⟩) := by
  have hA : allowRewrite (some ⟨[(key, JSONValue.obj doc0)], t0, g⟩) c.now
      { batch := true, norewrite := true,
        norewriteDuration := c.leaseDuration } = false := by
    have h1 : (g == (0 : Int)) = false := by simpa using hg
    have h2 : canRewrite t0 c.now c.leaseDuration = false := by
      simp only [canRewrite, decide_eq_false_iff_not, not_lt]
      exact hnow
    simp [allowRewrite, h1, h2, hd]
  have hm : mergeObjs [(key, JSONValue.obj doc0)] [(key, JSONValue.obj c.doc)]
      false = .error key := by
    simp [mergeObjs, containsKey]
  simp [createStore, createOp, decodeObjs_batch_singleton, hA, hm]

/-- Every contender arriving after the winner, within the winner's lease,
fails with a rewrite violation; the collection keeps the winner's document. -/
lemma election_losers (key : String) (doc0 : JsonMap) (t0 g : Int)
    (cs : List ElectionCaller) (hg : g ≠ 0)
    (hdur : ∀ x ∈ cs, 0 < x.leaseDuration)
    (hnow : ∀ x ∈ cs, x.now ≤ t0 + x.leaseDuration) :
    ∀ ng, runElection key (some ⟨[(key, JSONValue.obj doc0)], t0, g⟩) ng cs =
      (cs.map (fun _ => .noRewriteViolated key),
       some ⟨[(key, JSONValue.obj doc0)], t0, g⟩) := by
  induction cs with
  | nil => intro ng; rfl
  | cons x rest ih =>
    intro ng
    have hx := election_loser_step key doc0 t0 g ng x
      (hdur x (List.mem_cons_self x rest)) (hnow x (List.mem_cons_self x rest)) hg
    have ih' := ih (fun y hy => hdur y (List.mem_cons_of_mem x hy))
      (fun y hy => hnow y (List.mem_cons_of_mem x hy))
    simp [runElection, hx, ih', CreateResult.isOk]

/-- C7: N callers racing `create(path, {key: doc}, noRewrite, leaseDuration)`
on a fresh path, serialized by the path lock, with positive lease durations,
each loser arriving within the winner's lease window and no asserted
generations: the first caller succeeds, every other caller fails with a
rewrite violation, and the stored document under the key is the winner's. -/
theorem create_election_exactly_one_winner (key : String) (c : ElectionCaller)
    (cs : List ElectionCaller) (startGen : Int)
    (hgen : startGen ≠ 0)
    (hdur : ∀ x ∈ c :: cs, 0 < x.leaseDuration)
    (hnow : ∀ x ∈ cs, x.now ≤ c.now + x.leaseDuration) :
    runElection key none startGen (c :: cs) =
      (CreateResult.ok [(key, JSONValue.obj c.doc)] startGen
          ⟨[(key, JSONValue.obj c.doc)], c.now, startGen⟩ ::
        cs.map (fun _ => .noRewriteViolated key),
       some ⟨[(key, JSONValue.obj c.doc)], c.now, startGen⟩) ∧
    lookupKey [(key, JSONValue.obj c.doc)] key = some (JSONValue.obj c.doc) := by
  have hwin : createStore none c.now startGen
      { batch := true, norewrite := true,
        norewriteDuration := c.leaseDuration }
      (.obj [(key, .obj c.doc)]) =
      (.ok [(key, JSONValue.obj c.doc)] startGen
        ⟨[(key, JSONValue.obj c.doc)], c.now, startGen⟩,
       some ⟨[(key, JSONValue.obj c.doc)], c.now, startGen⟩) := by
    simp [createStore, createOp, decodeObjs_batch_singleton, allowRewrite,
      mergeObjs, containsKey, insertKey]
  have hrest := election_losers key c.doc c.now startGen cs hgen
    (fun y hy => hdur y (List.mem_cons_of_mem c hy)) hnow (startGen + 1)
  constructor
  · simp [runElection, hwin, hrest, CreateResult.isOk]
  · simp [lookupKey]

/-- Witness for C7: three callers race on the fresh path; the first (time
100) wins, the two later callers (times 105 and 108, lease 10) fail with a
rewrite violation, and the stored document is the winner's. -/
theorem create_election_witness :
    runElection "leader" none 1
      [⟨[("w", JSONValue.num 1)], 10, 100⟩,
       ⟨[("w", JSONValue.num 2)], 10, 105⟩,
       ⟨[("w", JSONValue.num 3)], 10, 108⟩] =
      (CreateResult.ok [("leader", JSONValue.obj [("w", JSONValue.num 1)])] 1
          ⟨[("leader", JSONValue.obj [("w", JSONValue.num 1)])], 100, 1⟩ ::
        [CreateResult.noRewriteViolated "leader",
         CreateResult.noRewriteViolated "leader"],
       some ⟨[("leader", JSONValue.obj [("w", JSONValue.num 1)])], 100, 1⟩) := by
  have h := create_election_exactly_one_winner "leader"
    ⟨[("w", JSONValue.num 1)], 10, 100⟩
    [⟨[("w", JSONValue.num 2)], 10, 105⟩, ⟨[("w", JSONValue.num 3)], 10, 108⟩]
    1 (by decide) (by decide) (by decide)
  simpa using h.1
